import Mathlib

/-!
Shallow embedding of the poultry-flock validation engine (`src/main.py`):
row classification, per-category validation, duplicate detection and result
assembly over an in-memory table.  The HTTP transport and the Excel parser
are outside the embedding; `analyze` starts from the already parsed table.
-/

set_option autoImplicit false
set_option maxRecDepth 4000

namespace Poultry

/-- A dynamically typed spreadsheet cell, as the Python engine sees it.
`none` is Python `None` (what `Series.get` yields for an absent label),
`na` is `pandas.NA` (the filler for columns absent from the uploaded sheet),
`nan` is the float NaN pandas uses for missing cells and failed numeric
coercions.  Numbers are modelled as rationals standing for Python floats;
IEEE infinities are not modelled (no analysed behaviour depends on them,
and the numeral text of a float is abstracted by `toString` on the
rational, see `pyStr`).  `bool` and `tuple` values only occur in output
records: the flag columns and the care duplicate key. -/
inductive Value where
  | none : Value
  | na : Value
  | nan : Value
  | num (q : ℚ) : Value
  | text (s : String) : Value
  | bool (b : Bool) : Value
  | tuple (ts : List String) : Value
deriving DecidableEq, Repr

/-- Python `str.strip()`: drop leading and trailing whitespace.  (Defined
structurally over the character list so that proofs can evaluate it; the
library `String.trim` is implemented by well-founded recursion.) -/
def pyStrip (s : String) : String :=
  ⟨((s.data.dropWhile Char.isWhitespace).reverse.dropWhile Char.isWhitespace).reverse⟩

/-- Python `str.upper()` (ASCII, which covers every analysed string). -/
def pyUpper (s : String) : String := ⟨s.data.map Char.toUpper⟩

/-- Scalar `pandas.isna`. -/
def Value.isna : Value → Bool
  | .none => true
  | .na => true
  | .nan => true
  | _ => false

/-- Scalar `pandas.notna`. -/
def Value.notna (v : Value) : Bool := !v.isna

/-- Python `isinstance(v, (int, float))` on the values of the model:
NaN is a float, numeric cells are floats, and `bool` is an `int` subclass. -/
def Value.isNumber : Value → Bool
  | .num _ => true
  | .nan => true
  | .bool _ => true
  | _ => false

/-- The test `val < 0` as it behaves on the number branch of the validator
(`NaN < 0` is false in Python). -/
def Value.isNeg : Value → Bool
  | .num q => decide (q < 0)
  | _ => false

/-- The test `float(val) != 0` from the classifier's number branch
(`float(nan) != 0` is true, `float(True) = 1.0`). -/
def Value.floatNe0 : Value → Bool
  | .num q => decide (q ≠ 0)
  | .nan => true
  | .bool b => b
  | _ => false

/-- Python `str(v)`.  The digit string of a number is abstracted by
`toString` on the rational: every analysed behaviour only asks whether such
a string is trim-empty or equal to another value's string, never for its
exact digits, and `toString` is injective on `ℚ` just as `str` is on
floats. -/
def pyStr : Value → String
  | .none => "None"
  | .na => "<NA>"
  | .nan => "nan"
  | .num q => toString q
  | .text s => s
  | .bool b => if b then "True" else "False"
  | .tuple ts => "(" ++ String.intercalate ", " ts ++ ")"

/-- The Python truth value of a cell.  `bool(pd.NA)` raises `TypeError`
("boolean value of NA is ambiguous"), which is the `Option.none` case;
note that `bool(float('nan'))` is `True`. -/
def pyTruth : Value → Option Bool
  | .none => some false
  | .na => Option.none
  | .nan => some true
  | .num q => some (decide (q ≠ 0))
  | .text s => some (decide (s ≠ ""))
  | .bool b => some b
  | .tuple ts => some (decide (ts ≠ []))

/-- Python `v or d`: `d` when `v` is falsy, `v` when truthy; raises a
`TypeError` on `pd.NA`. -/
def pyOr (v d : Value) : Except String Value :=
  match pyTruth v with
  | Option.none => .error "boolean value of NA is ambiguous"
  | some true => .ok v
  | some false => .ok d

/-- Decidable equality of `Except` results, so that concrete runs of the
engine can be checked by evaluation. -/
def exceptDecEq {ε α : Type} [DecidableEq ε] [DecidableEq α] :
    DecidableEq (Except ε α)
  | .ok a, .ok b =>
    if h : a = b then isTrue (by rw [h]) else isFalse (by intro hc; cases hc; exact h rfl)
  | .ok _, .error _ => isFalse (by intro hc; cases hc)
  | .error _, .ok _ => isFalse (by intro hc; cases hc)
  | .error e, .error e' =>
    if h : e = e' then isTrue (by rw [h]) else isFalse (by intro hc; cases hc; exact h rfl)

instance {ε α : Type} [DecidableEq ε] [DecidableEq α] : DecidableEq (Except ε α) :=
  exceptDecEq

/-- One row of the table: an ordered association of column labels to cells
(the view `DataFrame.apply(axis=1)` and `to_dict(orient='records')` give of
a record). -/
abbrev Row := List (String × Value)

/-- `row.get(col)` on a pandas row: the first value stored under the label,
Python `None` when the label is absent. -/
def rowGet : Row → String → Value
  | [], _ => .none
  | kv :: t, k => if kv.1 == k then kv.2 else rowGet t k

/-- Column assignment `df[col] = v` seen from one row: overwrite the column
in place when the label exists, append it at the end otherwise. -/
def setCol (r : Row) (k : String) (v : Value) : Row :=
  if r.any (fun kv => kv.1 == k) then r.map (fun kv => if kv.1 == k then (k, v) else kv)
  else r ++ [(k, v)]

/-- Whether the row carries a column of the given label. -/
def hasCol (r : Row) (k : String) : Bool := r.any (fun kv => kv.1 == k)

/-- Column catalog `REQUIRED_OPERATIONAL_COLS`. -/
def REQUIRED_OPERATIONAL_COLS : List String :=
  ["Flock", "Date", "Animal Mortality", "Animals Culled", "Table Eggs Prod",
   "Animal Feed Formula Name", "Supplied Feed", "Feed Received (Kg)",
   "Animal Feed Consumed", "Water Consumption",
   "Animal Weight", "Animal Uniformity", "Animal CV Uniformity",
   "Female Feed Formula ID", "Temperature Low", "Ammonia Level",
   "Animal Feed Inventory", "Female Feed Type ID",
   "Light_Duration (HU)", "Light intensity %"]

/-- Column catalog `OPTIONAL_OPERATIONAL_COLS`. -/
def OPTIONAL_OPERATIONAL_COLS : List String :=
  ["Animal Weight", "Animal Uniformity", "Animal CV Uniformity"]

/-- Column catalog `REQUIRED_CARE_COLS`. -/
def REQUIRED_CARE_COLS : List String :=
  ["Vaccination", "Creation User ID", "Medication", "Vacc Method",
   "Vacc Type", "VaccinevDoze", "Medication Batch", "Concentration %",
   "Record Source Type", "Medication Dose", "Medication Exp Date",
   "Doctor Name", "Doses Unit", "Produced PS_Nest_HE", "Vaccine Name"]

/-- What `clean_nan_inf` does to one cell: a float NaN becomes `None` (the
infinities, also rewritten by the source line, do not occur in the model). -/
def cleanVal : Value → Value
  | .nan => Value.none
  | v => v

/-- `clean_nan_inf`: every float NaN of the record is replaced by `None`
before output. -/
def clean_nan_inf (record : Row) : Row :=
  record.map fun kv => (kv.1, cleanVal kv.2)

/-- The per-column test of `is_operational_row` (source lines 48-54): the
cell is present and truthy — non-zero for a number, and for anything else
a string form whose strip is none of `''`, `'0'`, `'nan'`, `'NaN'`. -/
def operational_signal (row : Row) (col : String) : Bool :=
  let val := rowGet row col
  if val.notna then
    if val.isNumber then val.floatNe0
    else if pyStrip (pyStr val) ∈ (["", "0", "nan", "NaN"] : List String) then false
    else true
  else false

/-- `is_operational_row` (source lines 44-55): the row is operational when
some required operational column that is neither optional nor
`Flock`/`Date` holds a present, truthy value. -/
def is_operational_row (row : Row) : Bool :=
  REQUIRED_OPERATIONAL_COLS.any fun col =>
    if col ∈ OPTIONAL_OPERATIONAL_COLS ++ ["Flock", "Date"] then false
    else operational_signal row col

/-- The per-column finding of the operational validator (source lines
62-66): `"Missing <col>"` when missing or trim-empty after string
conversion, else `"Negative value in <col>"` when a negative number. -/
def operational_finding (row : Row) (col : String) : Option String :=
  let val := rowGet row col
  if val.isna ∨ pyStrip (pyStr val) = "" then some ("Missing " ++ col)
  else if val.isNumber ∧ val.isNeg then some ("Negative value in " ++ col)
  else Option.none

/-- The presence-only finding used for `Flock` and `Date` (source lines
68-71) and for the care columns (lines 91-93). -/
def missing_finding (row : Row) (col : String) : Option String :=
  let val := rowGet row col
  if val.isna ∨ pyStrip (pyStr val) = "" then some ("Missing " ++ col)
  else Option.none

/-- `'; '.join(errors) if errors else None` (source lines 72 and 94). -/
def joinFindings (errors : List String) : Option String :=
  if errors.isEmpty then Option.none else some (String.intercalate "; " errors)

/-- `check_operational_row` (source lines 57-72): `"Missing <col>"` and
`"Negative value in <col>"` findings over the non-optional operational
columns, then the `Flock`/`Date` presence checks, joined with `"; "`;
`None` when no message was emitted. -/
def check_operational_row (row : Row) : Option String :=
  joinFindings
    ((REQUIRED_OPERATIONAL_COLS.filterMap fun col =>
      if col ∈ OPTIONAL_OPERATIONAL_COLS ++ ["Flock", "Date"] then Option.none
      else operational_finding row col)
    ++ ((["Flock", "Date"] : List String).filterMap fun col => missing_finding row col))

/-- `check_care_row` (source lines 74-94).  `str(row.get(col) or '')` is
`pyOr` followed by `pyStr`: it raises on `pd.NA` (hence the `Except`), and
a float NaN — being truthy — passes through `or` untouched and stringifies
to `"nan"`.  Returns the pair (error details, note). -/
def check_care_row (row : Row) : Except String (Option String × String) := do
  let vaccV ← pyOr (rowGet row "Vaccination") (.text "")
  let medV ← pyOr (rowGet row "Medication") (.text "")
  let vacc := pyStrip (pyStr vaccV)
  let med := pyStrip (pyStr medV)
  let vmErrors := if vacc = "" ∧ med = "" then ["Missing Vaccination and Medication"] else []
  let note :=
    if vacc = "" ∧ med = "" then ""
    else if vacc ≠ "" ∧ med = "" then "Note: Only vaccination recorded, no medication data entered."
    else if med ≠ "" ∧ vacc = "" then "Note: Only medication recorded, no vaccination data entered."
    else ""
  let colErrors := REQUIRED_CARE_COLS.filterMap fun col =>
    if col ∈ (["Vaccination", "Medication"] : List String) then Option.none
    else missing_finding row col
  pure (joinFindings (vmErrors ++ colErrors), note)

/-- Normalised component of the care duplicate key for the eight guarded
fields: `str(v).strip().upper() if pd.notna(v) else ''`. -/
def keyU (v : Value) : String := if v.notna then pyUpper (pyStrip (pyStr v)) else ""

/-- Normalised component for `Medication Exp Date`: trimmed but not
upper-cased, guarded by `pd.notna`. -/
def keyT (v : Value) : String := if v.notna then pyStrip (pyStr v) else ""

/-- The care duplicate key (source lines 130-144).  `Flock` and `Date` are
stringified without a `pd.notna` guard: a missing `Flock` becomes
`str(nan).strip().upper() = "NAN"` and a missing `Date` becomes `"nan"`,
not the empty string. -/
def care_key (r : Row) : List String :=
  [ pyUpper (pyStrip (pyStr (rowGet r "Flock"))),
    pyStrip (pyStr (rowGet r "Date")),
    keyU (rowGet r "Vaccination"),
    keyU (rowGet r "Vacc Method"),
    keyU (rowGet r "Vacc Type"),
    keyU (rowGet r "VaccinevDoze"),
    keyU (rowGet r "Medication"),
    keyU (rowGet r "Medication Dose"),
    keyU (rowGet r "Medication Batch"),
    keyT (rowGet r "Medication Exp Date") ]

/-- `duplicated` hashes every missing marker (`NaN`, `None`, `pd.NA`) to
the same sentinel, so the grouping key collapses them to one value. -/
def naCollapse (v : Value) : Value := if v.isna then .none else v

/-- The operational duplicate key: the exact `(Flock, Date)` pair, missing
markers collapsed as `duplicated` factorisation does. -/
def opKey (r : Row) : Value × Value :=
  (naCollapse (rowGet r "Flock"), naCollapse (rowGet r "Date"))

/-- The operational grouping keys, one per row. -/
def opKeys (rows : List Row) : List (Value × Value) := rows.map opKey

/-- `duplicated(subset=['Flock', 'Date'], keep=False)` over the operational
table: a row is flagged when its key occurs at least twice (source lines
123-126; the empty table yields the empty flag column). -/
def opDupFlags (rows : List Row) : List Bool :=
  (opKeys rows).map fun k => decide (2 ≤ (opKeys rows).count k)

/-- The care grouping keys, one per row (the `care_key` column of line
130). -/
def careKeys (rows : List Row) : List (List String) := rows.map care_key

/-- `duplicated(subset=['care_key'], keep=False)` over the care table
(source lines 145-148). -/
def careDupFlags (rows : List Row) : List Bool :=
  (careKeys rows).map fun k => decide (2 ≤ (careKeys rows).count k)

/-- Digit-string accumulator for `parseFloat`. -/
def digitsVal (cs : List Char) : ℕ :=
  cs.foldl (fun n c => n * 10 + (c.toNat - 48)) 0

/-- Decimal parser standing for `float(s)` as far as the analysed
behaviour needs it: optional sign, digits, optional fractional part,
surrounding whitespace ignored; anything else fails (scientific notation
and the `inf` literal are outside the model, and a `nan` literal coerces
to missing either way). -/
def parseFloat (s : String) : Option ℚ :=
  let t := (pyStrip s).data
  let signed : ℚ × List Char :=
    match t with
    | '-' :: rest => (-1, rest)
    | '+' :: rest => (1, rest)
    | _ => (1, t)
  let sign := signed.1
  let body := signed.2
  let intPart := body.takeWhile Char.isDigit
  let rest := body.dropWhile Char.isDigit
  match rest with
  | [] =>
    if intPart.isEmpty then Option.none
    else some (sign * (digitsVal intPart : ℚ))
  | '.' :: frac =>
    if frac.all Char.isDigit ∧ ¬(intPart.isEmpty ∧ frac.isEmpty) then
      some (sign * ((digitsVal intPart : ℚ) + (digitsVal frac : ℚ) / (10 : ℚ) ^ frac.length))
    else Option.none
  | _ => Option.none

/-- `pd.to_numeric(v, errors='coerce')` on one cell: numbers pass through,
parsable text becomes a number, everything else degrades to NaN. -/
def to_numeric : Value → Value
  | .num q => .num q
  | .bool b => .num (if b then 1 else 0)
  | .text s => match parseFloat s with | some q => .num q | Option.none => .nan
  | _ => .nan

/-- The six designated categorical/text operational columns exempt from
numeric coercion (source line 114). -/
def TEXT_OPERATIONAL_COLS : List String :=
  ["Flock", "Date", "Animal Feed Formula Name", "Supplied Feed",
   "Female Feed Formula ID", "Female Feed Type ID"]

/-- The operational columns that line 113-115 coerces to numeric. -/
def NUMERIC_OPERATIONAL_COLS : List String :=
  REQUIRED_OPERATIONAL_COLS.filter fun c =>
    !(OPTIONAL_OPERATIONAL_COLS.contains c) && !(TEXT_OPERATIONAL_COLS.contains c)

/-- A parsed table: the column labels of the DataFrame and its rows. -/
structure Table where
  cols : List String
  rows : List Row
deriving DecidableEq, Repr

/-- Schema normalisation (source lines 107-115): trim the headers, create
every absent required column filled with `pd.NA`, then coerce the
designated numeric columns, unparsable and missing values becoming NaN. -/
def normalizeTable (t : Table) : Table :=
  let cols := t.cols.map pyStrip
  let rows := t.rows.map fun r => r.map fun kv => (pyStrip kv.1, kv.2)
  let missing := (REQUIRED_OPERATIONAL_COLS ++ REQUIRED_CARE_COLS).dedup.filter
    fun c => !(cols.contains c)
  let rows := rows.map fun r => missing.foldl (fun r c => setCol r c .na) r
  let rows := rows.map fun r =>
    NUMERIC_OPERATIONAL_COLS.foldl (fun r c => setCol r c (to_numeric (rowGet r c))) r
  ⟨cols ++ missing, rows⟩

/-- Python `str(x)` on an `Error Details` cell, as `astype(str)` applies
it: `None` renders as the string `"None"`. -/
def optStrRepr : Option String → String
  | Option.none => "None"
  | some s => s

/-- The Python object stored in a cell for an optional string. -/
def valueOfOptStr : Option String → Value
  | Option.none => .none
  | some s => .text s

/-- Line 152/161: `Error Details.notnull() & (Error Details != "")`. -/
def edNonempty (ed : Option String) : Bool :=
  !(ed == Option.none) && !(ed == some "")

/-- Result assembly for one operational row (source lines 151-155 and 166):
validate with the `Duplicate Error` column already present, derive
`has_error`, and on a duplicate append the fixed suffix to the
`astype(str)` form of `Error Details` (so a `None` prior value becomes
`"None; Duplicate Flock/Date"`). -/
def assembleOp (r : Row) (d : Bool) : Row :=
  let r1 := setCol r "Duplicate Error" (.bool d)
  let ed := check_operational_row r1
  let hasErr := edNonempty ed || d
  let edFinal := if d then Value.text (optStrRepr ed ++ "; Duplicate Flock/Date")
    else valueOfOptStr ed
  clean_nan_inf (setCol (setCol r1 "Error Details" edFinal) "has_error" (.bool hasErr))

/-- The operational half of the engine: duplicate flags (line 124), then
per-row assembly. -/
def processOperational (rows : List Row) : List Row :=
  (rows.zip (opDupFlags rows)).map fun p => assembleOp p.1 p.2

/-- The care table after line 130 and 146: every row carries its `care_key`
column and its `Duplicate Error` flag. -/
def careRows2 (rows : List Row) : List Row :=
  (rows.zip ((careKeys rows).zip (careDupFlags rows))).map fun p =>
    setCol (setCol p.1 "care_key" (Value.tuple p.2.1)) "Duplicate Error" (Value.bool p.2.2)

/-- Sequential fallible map: `DataFrame.apply` raising at the first row
whose function raises. -/
def mapExcept {α β ε : Type} (f : α → Except ε β) : List α → Except ε (List β)
  | [] => .ok []
  | a :: l =>
    match f a with
    | .error e => .error e
    | .ok b =>
      match mapExcept f l with
      | .error e => .error e
      | .ok bs => .ok (b :: bs)

/-- Result assembly for one care row after validation (source lines
159-166): `Error Details`, `note`, `has_error`, the duplicate suffix on the
`astype(str)` form, and the NaN sweep. -/
def finishCare (r2 : Row) (d : Bool) (edn : Option String × String) : Row :=
  let ed := edn.1
  let hasErr := edNonempty ed || d
  let edFinal := if d then
      Value.text (optStrRepr ed ++ "; Duplicate Flock/Date/Vaccination/Medication")
    else valueOfOptStr ed
  clean_nan_inf (setCol (setCol (setCol r2 "Error Details" edFinal)
    "note" (.text edn.2)) "has_error" (.bool hasErr))

/-- The care half of the engine (source lines 129-148 and 157-164): add the
`care_key` column, flag duplicates, validate every row — propagating the
`TypeError` that `check_care_row` raises on a `pd.NA` cell — and assemble
the records. -/
def processCare (rows : List Row) : Except String (List Row) :=
  match mapExcept check_care_row (careRows2 rows) with
  | .error e => .error e
  | .ok edns => .ok ((((careRows2 rows).zip (careDupFlags rows)).zip edns).map fun p =>
      finishCare p.1.1 p.1.2 p.2)

/-- The two ordered record sequences the endpoint returns. -/
structure AnalyzeResult where
  operational_data : List Row
  care_data : List Row
deriving DecidableEq, Repr

/-- The engine behind `/analyze` on an already parsed table (source lines
107-172): normalise the schema, split the rows by `is_operational_row`
(the stable partition of lines 118-120), and run both halves.  An
uncaught Python exception is the `.error` case. -/
def analyze (t : Table) : Except String AnalyzeResult :=
  let df := normalizeTable t
  let opRows := df.rows.filter is_operational_row
  let careRows := df.rows.filter fun r => !(is_operational_row r)
  match processCare careRows with
  | .error e => .error e
  | .ok care => .ok ⟨processOperational opRows, care⟩

/-! Specification-side definitions, written from the words of the spec so
that the claims can be compared with the behaviour of the embedded code. -/

/-- Spec 4.2: a value is present and truthy — numbers when non-zero,
strings when the trimmed text is none of `""`, `"0"`, `"nan"`, `"NaN"`;
missing values are not present. -/
def SpecTruthy : Value → Bool
  | .num q => decide (q ≠ 0)
  | .text s => !(decide (pyStrip s ∈ (["", "0", "nan", "NaN"] : List String)))
  | _ => false

/-- The input value kinds of the spec's data model (section 6): missing,
number or text; flag booleans and key tuples exist only in the output. -/
def InputKind : Value → Bool
  | .bool _ => false
  | .tuple _ => false
  | _ => true

/-- A row whose cells all have input kinds. -/
def WellTyped (r : Row) : Bool := r.all fun kv => InputKind kv.2

/-- Spec 4.4, operational rule, written from the spec's words: one
`"Missing <col>"` or `"Negative value in <col>"` finding per qualifying
column, then the `Flock`/`Date` presence findings. -/
def spec_operational_errors (r : Row) : List String :=
  ((REQUIRED_OPERATIONAL_COLS.filter fun col =>
      decide (col ∉ OPTIONAL_OPERATIONAL_COLS) &&
      decide (col ∉ (["Flock", "Date"] : List String))).filterMap fun col =>
    operational_finding r col)
  ++ ((["Flock", "Date"] : List String).filterMap fun col => missing_finding r col)

/-- The care duplicate key as claim C3 words it: every one of the ten
fields normalised with missing values becoming the empty string, trimmed
and upper-cased except the `Date` and `Medication Exp Date` components,
which are only trimmed. -/
def spec_care_key (r : Row) : List String :=
  [ keyU (rowGet r "Flock"),
    keyT (rowGet r "Date"),
    keyU (rowGet r "Vaccination"),
    keyU (rowGet r "Vacc Method"),
    keyU (rowGet r "Vacc Type"),
    keyU (rowGet r "VaccinevDoze"),
    keyU (rowGet r "Medication"),
    keyU (rowGet r "Medication Dose"),
    keyU (rowGet r "Medication Batch"),
    keyT (rowGet r "Medication Exp Date") ]

/-! Concrete fixtures used by the counterexamples and witnesses. -/

/-- A parsed sheet that has only the `Flock` and `Date` columns; its one
row carries no operational signal, so it is classified as a care row. -/
def tMissingCareCols : Table :=
  ⟨["Flock", "Date"], [[("Flock", .text "A1"), ("Date", .text "2024-01-01")]]⟩

/-- A care row whose `Vaccination` and `Medication` cells are both missing
(float NaN, as an empty Excel cell parses), every other care column
present. -/
def rowBothVaccMedMissing : Row :=
  [("Vaccination", Value.nan), ("Medication", Value.nan),
   ("Creation User ID", .text "X"), ("Vacc Method", .text "X"), ("Vacc Type", .text "X"),
   ("VaccinevDoze", .text "X"), ("Medication Batch", .text "X"), ("Concentration %", .text "X"),
   ("Record Source Type", .text "X"), ("Medication Dose", .text "X"),
   ("Medication Exp Date", .text "X"), ("Doctor Name", .text "X"), ("Doses Unit", .text "X"),
   ("Produced PS_Nest_HE", .text "X"), ("Vaccine Name", .text "X")]

/-- A care row whose `Flock` cell is a missing (NaN) value. -/
def rowFlockNaN : Row := [("Flock", Value.nan)]

/-- A care row whose `Flock` cell is the literal text `"nan"`. -/
def rowFlockTextNan : Row := [("Flock", Value.text "nan")]

/-- A care row whose `Date` cell is a missing (NaN) value. -/
def rowDateNaN : Row := [("Date", Value.nan)]

/-- An operational row with every required field valid: classified
operational and free of findings. -/
def validOperationalRow : Row :=
  [("Flock", .text "A1"), ("Date", .text "2024-01-01"),
   ("Animal Mortality", Value.num 1), ("Animals Culled", Value.num 2),
   ("Table Eggs Prod", Value.num 3),
   ("Animal Feed Formula Name", .text "F"), ("Supplied Feed", .text "S"),
   ("Feed Received (Kg)", Value.num 4), ("Animal Feed Consumed", Value.num 5),
   ("Water Consumption", Value.num 6), ("Female Feed Formula ID", .text "ID1"),
   ("Temperature Low", Value.num 7), ("Ammonia Level", Value.num 8),
   ("Animal Feed Inventory", Value.num 9), ("Female Feed Type ID", .text "ID2"),
   ("Light_Duration (HU)", Value.num 10), ("Light intensity %", Value.num 11)]

/-- `validOperationalRow` with `Animal Feed Consumed = -5` (spec
Example 4). -/
def negativeFeedRow : Row :=
  setCol validOperationalRow "Animal Feed Consumed" (Value.num (-5))

/-- A two-row parsed sheet: one operational row and one care row, with the
`Vaccination` and `Medication` columns present so that the engine
succeeds. -/
def tTwoRows : Table :=
  ⟨["Flock", "Date", "Vaccination", "Medication", "Animal Mortality"],
   [[("Flock", .text "A"), ("Date", .text "D"), ("Vaccination", .text "V"),
     ("Medication", .text "M"), ("Animal Mortality", Value.num 3)],
    [("Flock", .text "A"), ("Date", .text "D"), ("Vaccination", .text "V"),
     ("Medication", .text "M"), ("Animal Mortality", Value.num 0)]]⟩

/-- Two operational rows sharing the same `(Flock, Date)` key. -/
def dupFlockRows : List Row :=
  [[("Flock", Value.text "A")], [("Flock", Value.text "A")]]

/-- A single-column row used by the classifier witness. -/
def mortalityOnlyRow : Row := [("Animal Mortality", Value.num 5)]

/-- The care records the engine emits for one empty row. -/
def careRecsOfEmptyRow : List Row := (processCare [[]]).toOption.getD []

/-- The operational record the engine emits for one empty row. -/
def opRecOfEmptyRow : Row := (processOperational [[]]).headD []

/-- The result of the engine on `tTwoRows`. -/
def resTwoRows : AnalyzeResult := (analyze tTwoRows).toOption.getD ⟨[], []⟩

/-! Plumbing lemmas about the row operations. -/

theorem rowGet_map_replace (r : Row) (k : String) (v : Value)
    (h : r.any (fun kv => kv.1 == k) = true) :
    rowGet (r.map (fun kv => if kv.1 == k then (k, v) else kv)) k = v := by
  induction r with
  | nil => simp at h
  | cons kv t ih =>
    by_cases hk : kv.1 = k
    · simp [rowGet, hk]
    · have hk' : (kv.1 == k) = false := by simpa using hk
      simp only [List.any_cons, hk', Bool.false_or] at h
      simpa [rowGet, hk'] using ih h

theorem rowGet_append_single (r : Row) (k : String) (v : Value)
    (h : r.any (fun kv => kv.1 == k) = false) :
    rowGet (r ++ [(k, v)]) k = v := by
  induction r with
  | nil => simp [rowGet]
  | cons kv t ih =>
    simp only [List.any_cons, Bool.or_eq_false_iff] at h
    simpa [rowGet, h.1] using ih h.2

theorem rowGet_setCol_self (r : Row) (k : String) (v : Value) :
    rowGet (setCol r k v) k = v := by
  unfold setCol
  split
  · exact rowGet_map_replace r k v (by assumption)
  · rename_i h
    rw [Bool.not_eq_true] at h
    exact rowGet_append_single r k v h

theorem rowGet_map_replace_ne (r : Row) (k k' : String) (v : Value) (hne : k' ≠ k) :
    rowGet (r.map (fun kv => if kv.1 == k then (k, v) else kv)) k' = rowGet r k' := by
  have hkk' : (k == k') = false := by simpa using Ne.symm hne
  induction r with
  | nil => rfl
  | cons kv t ih =>
    by_cases hk : kv.1 = k
    · have h1 : (kv.1 == k) = true := by simpa using hk
      have h2 : (kv.1 == k') = false := by rw [hk]; exact hkk'
      simp only [List.map_cons, rowGet, h1, if_true, h2, hkk', if_false, Bool.false_eq_true]
      exact ih
    · have h1 : (kv.1 == k) = false := by simpa using hk
      by_cases hkk : kv.1 = k'
      · have h2 : (kv.1 == k') = true := by simpa using hkk
        simp only [List.map_cons, rowGet, h1, if_false, h2, if_true, Bool.false_eq_true]
      · have h2 : (kv.1 == k') = false := by simpa using hkk
        simp only [List.map_cons, rowGet, h1, h2, if_false, Bool.false_eq_true]
        exact ih

theorem rowGet_append_single_ne (r : Row) (k k' : String) (v : Value) (hne : k' ≠ k) :
    rowGet (r ++ [(k, v)]) k' = rowGet r k' := by
  have hkk' : (k == k') = false := by simpa using Ne.symm hne
  induction r with
  | nil => simp [rowGet, hkk']
  | cons kv t ih =>
    by_cases hkk : kv.1 = k'
    · have h2 : (kv.1 == k') = true := by simpa using hkk
      simp [rowGet, h2]
    · have h2 : (kv.1 == k') = false := by simpa using hkk
      simpa [rowGet, h2] using ih

theorem rowGet_setCol_ne (r : Row) (k k' : String) (v : Value) (hne : k' ≠ k) :
    rowGet (setCol r k v) k' = rowGet r k' := by
  unfold setCol
  split
  · exact rowGet_map_replace_ne r k k' v hne
  · exact rowGet_append_single_ne r k k' v hne

theorem rowGet_clean_nan_inf (r : Row) (k : String) :
    rowGet (clean_nan_inf r) k = cleanVal (rowGet r k) := by
  induction r with
  | nil => simp [rowGet, clean_nan_inf, cleanVal]
  | cons kv t ih =>
    by_cases hkk : kv.1 = k
    · have h2 : (kv.1 == k) = true := by simpa using hkk
      simp [rowGet, clean_nan_inf, h2]
    · have h2 : (kv.1 == k) = false := by simpa using hkk
      simpa [rowGet, clean_nan_inf, h2] using ih

theorem hasCol_clean_nan_inf (r : Row) (k : String) :
    hasCol (clean_nan_inf r) k = hasCol r k := by
  induction r with
  | nil => rfl
  | cons kv t ih =>
    have ih' : t.any ((fun kv => kv.1 == k) ∘ fun kv => (kv.1, cleanVal kv.2)) =
        t.any fun kv => kv.1 == k := by simpa [hasCol, clean_nan_inf] using ih
    simp [hasCol, clean_nan_inf, List.any_cons, ih']

theorem any_key_map_replace (r : Row) (k k' : String) (v : Value) :
    (r.map (fun kv => if kv.1 == k then (k, v) else kv)).any (fun kv => kv.1 == k') =
    r.any (fun kv => kv.1 == k') := by
  induction r with
  | nil => rfl
  | cons kv t ih =>
    simp only [List.map_cons, List.any_cons, ih]
    by_cases hk : kv.1 = k
    · have h1 : (kv.1 == k) = true := by simpa using hk
      simp [h1, hk]
    · have h1 : (kv.1 == k) = false := by simpa using hk
      simp [h1]

theorem hasCol_setCol (r : Row) (k k' : String) (v : Value) :
    hasCol (setCol r k v) k' = (hasCol r k' || (k == k')) := by
  unfold setCol hasCol
  split
  · rename_i hany
    rw [any_key_map_replace]
    by_cases hkk : k = k'
    · subst hkk
      simp [hany]
    · have h2 : (k == k') = false := by simpa using hkk
      simp [h2]
  · simp

/-! Counting, `mapExcept` and indexing lemmas. -/

theorem two_le_count_iff {κ : Type} [BEq κ] [LawfulBEq κ] (l : List κ) (k : κ) :
    2 ≤ l.count k ↔ ∃ i j : ℕ, i < j ∧ l[i]? = some k ∧ l[j]? = some k := by
  induction l with
  | nil => simp
  | cons a t ih =>
    rw [List.count_cons]
    by_cases hak : a = k
    · subst hak
      rw [if_pos (beq_self_eq_true a)]
      constructor
      · intro h
        have h1 : a ∈ t := List.count_pos_iff.mp (by omega)
        obtain ⟨j, hj⟩ := List.mem_iff_getElem?.mp h1
        exact ⟨0, j + 1, Nat.succ_pos j, List.getElem?_cons_zero, by simpa using hj⟩
      · rintro ⟨i, j, hij, hi, hj⟩
        obtain ⟨j', rfl⟩ : ∃ j', j = j' + 1 := ⟨j - 1, by omega⟩
        rw [List.getElem?_cons_succ] at hj
        have h1 : a ∈ t := List.mem_iff_getElem?.mpr ⟨j', hj⟩
        have := List.count_pos_iff.mpr h1
        omega
    · have hane : (a == k) = false := by simpa using hak
      rw [hane, if_neg Bool.false_ne_true, Nat.add_zero, ih]
      constructor
      · rintro ⟨i, j, hij, hi, hj⟩
        exact ⟨i + 1, j + 1, by omega, by simpa using hi, by simpa using hj⟩
      · rintro ⟨i, j, hij, hi, hj⟩
        match i, j with
        | 0, _ =>
          rw [List.getElem?_cons_zero] at hi
          exact absurd (by simpa using hi) hak
        | i' + 1, 0 => omega
        | i' + 1, j' + 1 =>
          rw [List.getElem?_cons_succ] at hi hj
          exact ⟨i', j', by omega, hi, hj⟩

theorem count_self_two_le_iff {κ : Type} [BEq κ] [LawfulBEq κ] (l : List κ) (i : ℕ)
    (h : i < l.length) :
    2 ≤ l.count l[i] ↔ ∃ j, ∃ hj : j < l.length, j ≠ i ∧ l[j] = l[i] := by
  rw [two_le_count_iff]
  constructor
  · rintro ⟨p, q, hpq, hp, hq⟩
    by_cases hpi : p = i
    · subst hpi
      obtain ⟨hqlen, hqv⟩ := List.getElem?_eq_some_iff.mp hq
      exact ⟨q, hqlen, by omega, hqv⟩
    · obtain ⟨hplen, hpv⟩ := List.getElem?_eq_some_iff.mp hp
      exact ⟨p, hplen, hpi, hpv⟩
  · rintro ⟨j, hj, hjne, hjeq⟩
    rcases Nat.lt_or_ge j i with hlt | hge
    · exact ⟨j, i, hlt, by rw [List.getElem?_eq_getElem hj, hjeq],
        List.getElem?_eq_getElem h⟩
    · have hij : i < j := by omega
      exact ⟨i, j, hij, List.getElem?_eq_getElem h,
        by rw [List.getElem?_eq_getElem hj, hjeq]⟩

theorem mapExcept_ok_length {α β ε : Type} (f : α → Except ε β) (l : List α)
    (res : List β) (h : mapExcept f l = .ok res) : res.length = l.length := by
  induction l generalizing res with
  | nil =>
    simp only [mapExcept] at h
    cases h
    rfl
  | cons a t ih =>
    rw [mapExcept] at h
    cases hfa : f a with
    | error e => rw [hfa] at h; exact absurd h (by simp)
    | ok b =>
      rw [hfa] at h
      cases hrest : mapExcept f t with
      | error e => rw [hrest] at h; exact absurd h (by simp)
      | ok bs =>
        rw [hrest] at h
        cases h
        simpa using ih bs hrest

theorem mapExcept_ok_getElem {α β ε : Type} (f : α → Except ε β) (l : List α)
    (res : List β) (h : mapExcept f l = .ok res) (i : ℕ)
    (hi : i < l.length) (hi' : i < res.length) : f l[i] = .ok res[i] := by
  induction l generalizing res i with
  | nil => simp at hi
  | cons a t ih =>
    rw [mapExcept] at h
    cases hfa : f a with
    | error e => rw [hfa] at h; exact absurd h (by simp)
    | ok b =>
      rw [hfa] at h
      cases hrest : mapExcept f t with
      | error e => rw [hrest] at h; exact absurd h (by simp)
      | ok bs =>
        rw [hrest] at h
        cases h
        match i with
        | 0 => simpa using hfa
        | i' + 1 =>
          simp only [List.getElem_cons_succ]
          exact ih bs hrest i' (by simpa using hi) (by simpa using hi')

theorem getElem_zip_pair {α β : Type} (l₁ : List α) (l₂ : List β) (i : ℕ)
    (h1 : i < l₁.length) (h2 : i < l₂.length) (h : i < (l₁.zip l₂).length) :
    (l₁.zip l₂)[i] = (l₁[i], l₂[i]) := by
  have hz : (l₁.zip l₂)[i]? = some ((l₁.zip l₂)[i]) := List.getElem?_eq_getElem h
  obtain ⟨ha, hb⟩ := List.getElem?_zip_eq_some.mp hz
  rw [List.getElem?_eq_getElem h1] at ha
  rw [List.getElem?_eq_getElem h2] at hb
  have e1 : l₁[i] = ((l₁.zip l₂)[i]).1 := Option.some.inj ha
  have e2 : l₂[i] = ((l₁.zip l₂)[i]).2 := Option.some.inj hb
  rw [e1, e2]

theorem getElem_of_getElem? {α : Type} (l : List α) (i : ℕ) (h : i < l.length)
    (x : α) (hx : l[i]? = some x) : l[i] = x := by
  rw [List.getElem?_eq_getElem h] at hx
  exact Option.some.inj hx

theorem opDupFlags_length (rows : List Row) :
    (opDupFlags rows).length = rows.length := by
  simp [opDupFlags, opKeys]

theorem careKeys_length (rows : List Row) :
    (careKeys rows).length = rows.length := by
  simp [careKeys]

theorem careDupFlags_length (rows : List Row) :
    (careDupFlags rows).length = rows.length := by
  simp [careDupFlags, careKeys]

theorem careRows2_length (rows : List Row) :
    (careRows2 rows).length = rows.length := by
  simp [careRows2, careKeys_length, careDupFlags_length]

theorem processOperational_length (rows : List Row) :
    (processOperational rows).length = rows.length := by
  simp [processOperational, opDupFlags_length]

theorem processOperational_getElem? (rows : List Row) (i : ℕ)
    (h2 : i < rows.length) (h3 : i < (opDupFlags rows).length) :
    (processOperational rows)[i]? = some (assembleOp rows[i] ((opDupFlags rows)[i])) := by
  unfold processOperational
  rw [List.getElem?_map]
  have hz : (rows.zip (opDupFlags rows))[i]? = some (rows[i], (opDupFlags rows)[i]) :=
    List.getElem?_zip_eq_some.mpr ⟨List.getElem?_eq_getElem h2, List.getElem?_eq_getElem h3⟩
  rw [hz]
  rfl

theorem careRows2_getElem? (rows : List Row) (i : ℕ) (h2 : i < rows.length)
    (hk : i < (careKeys rows).length) (hf : i < (careDupFlags rows).length) :
    (careRows2 rows)[i]? = some (setCol (setCol rows[i] "care_key"
      (Value.tuple ((careKeys rows)[i]))) "Duplicate Error"
      (Value.bool ((careDupFlags rows)[i]))) := by
  unfold careRows2
  rw [List.getElem?_map]
  have hkf : ((careKeys rows).zip (careDupFlags rows))[i]? =
      some ((careKeys rows)[i], (careDupFlags rows)[i]) :=
    List.getElem?_zip_eq_some.mpr ⟨List.getElem?_eq_getElem hk, List.getElem?_eq_getElem hf⟩
  have hz : (rows.zip ((careKeys rows).zip (careDupFlags rows)))[i]? =
      some (rows[i], ((careKeys rows)[i], (careDupFlags rows)[i])) :=
    List.getElem?_zip_eq_some.mpr ⟨List.getElem?_eq_getElem h2, hkf⟩
  rw [hz]
  rfl

theorem processCare_ok_parts (rows : List Row) (recs : List Row)
    (h : processCare rows = .ok recs) :
    ∃ edns, mapExcept check_care_row (careRows2 rows) = .ok edns ∧
      recs = (((careRows2 rows).zip (careDupFlags rows)).zip edns).map
        (fun p => finishCare p.1.1 p.1.2 p.2) := by
  unfold processCare at h
  cases hm : mapExcept check_care_row (careRows2 rows) with
  | error e => rw [hm] at h; exact absurd h (by simp)
  | ok edns =>
    rw [hm] at h
    cases h
    exact ⟨edns, rfl, rfl⟩

theorem processCare_ok_length (rows : List Row) (recs : List Row)
    (h : processCare rows = .ok recs) : recs.length = rows.length := by
  obtain ⟨edns, hm, rfl⟩ := processCare_ok_parts rows recs h
  have he : edns.length = (careRows2 rows).length := mapExcept_ok_length _ _ _ hm
  have h1 := careRows2_length rows
  have h2 := careDupFlags_length rows
  simp only [List.length_map, List.length_zip]
  omega

theorem processCare_ok_elem (rows : List Row) (recs : List Row)
    (h : processCare rows = .ok recs) (i : ℕ) (hi : i < recs.length)
    (h2 : i < rows.length) (hk : i < (careKeys rows).length)
    (hf : i < (careDupFlags rows).length) (hr2 : i < (careRows2 rows).length) :
    ∃ edn, check_care_row ((careRows2 rows)[i]) = .ok edn ∧
      (careRows2 rows)[i] = setCol (setCol rows[i] "care_key"
        (Value.tuple ((careKeys rows)[i]))) "Duplicate Error"
        (Value.bool ((careDupFlags rows)[i])) ∧
      recs[i] = finishCare ((careRows2 rows)[i]) ((careDupFlags rows)[i]) edn := by
  obtain ⟨edns, hm, hrec⟩ := processCare_ok_parts rows recs h
  have he : edns.length = (careRows2 rows).length := mapExcept_ok_length _ _ _ hm
  have hie : i < edns.length := by omega
  refine ⟨edns[i], mapExcept_ok_getElem _ _ _ hm i hr2 hie, ?_, ?_⟩
  · exact getElem_of_getElem? _ _ hr2 _ (careRows2_getElem? rows i h2 hk hf)
  · subst hrec
    have hzin : i < ((careRows2 rows).zip (careDupFlags rows)).length := by
      simp only [List.length_zip]
      omega
    have hz1 : ((careRows2 rows).zip (careDupFlags rows))[i]? =
        some ((careRows2 rows)[i], (careDupFlags rows)[i]) :=
      List.getElem?_zip_eq_some.mpr ⟨List.getElem?_eq_getElem hr2, List.getElem?_eq_getElem hf⟩
    have hz2 : (((careRows2 rows).zip (careDupFlags rows)).zip edns)[i]? =
        some (((careRows2 rows)[i], (careDupFlags rows)[i]), edns[i]) :=
      List.getElem?_zip_eq_some.mpr ⟨hz1, List.getElem?_eq_getElem hie⟩
    have hmap : ((((careRows2 rows).zip (careDupFlags rows)).zip edns).map
        (fun p => finishCare p.1.1 p.1.2 p.2))[i]? =
        some (finishCare ((careRows2 rows)[i]) ((careDupFlags rows)[i]) edns[i]) := by
      rw [List.getElem?_map, hz2]
      rfl
    exact getElem_of_getElem? _ _ hi _ hmap

theorem cleanVal_valueOfOptStr (ed : Option String) :
    cleanVal (valueOfOptStr ed) = valueOfOptStr ed := by
  cases ed <;> rfl

theorem rowGet_assembleOp_dup (r : Row) (d : Bool) :
    rowGet (assembleOp r d) "Duplicate Error" = Value.bool d := by
  unfold assembleOp
  rw [rowGet_clean_nan_inf, rowGet_setCol_ne _ _ _ _ (by decide),
    rowGet_setCol_ne _ _ _ _ (by decide), rowGet_setCol_self]
  rfl

theorem rowGet_assembleOp_ed (r : Row) (d : Bool) :
    rowGet (assembleOp r d) "Error Details" =
      (if d then Value.text (optStrRepr (check_operational_row
          (setCol r "Duplicate Error" (Value.bool d))) ++ "; Duplicate Flock/Date")
       else valueOfOptStr (check_operational_row
          (setCol r "Duplicate Error" (Value.bool d)))) := by
  unfold assembleOp
  rw [rowGet_clean_nan_inf, rowGet_setCol_ne _ _ _ _ (by decide), rowGet_setCol_self]
  cases d
  · exact cleanVal_valueOfOptStr _
  · rfl

theorem rowGet_assembleOp_hasErr (r : Row) (d : Bool) :
    rowGet (assembleOp r d) "has_error" =
      Value.bool (edNonempty (check_operational_row
        (setCol r "Duplicate Error" (Value.bool d))) || d) := by
  unfold assembleOp
  rw [rowGet_clean_nan_inf, rowGet_setCol_self]
  rfl

theorem rowGet_finishCare_ed (r2 : Row) (d : Bool) (edn : Option String × String) :
    rowGet (finishCare r2 d edn) "Error Details" =
      (if d then Value.text (optStrRepr edn.1 ++ "; Duplicate Flock/Date/Vaccination/Medication")
       else valueOfOptStr edn.1) := by
  unfold finishCare
  rw [rowGet_clean_nan_inf, rowGet_setCol_ne _ _ _ _ (by decide),
    rowGet_setCol_ne _ _ _ _ (by decide), rowGet_setCol_self]
  cases d
  · exact cleanVal_valueOfOptStr _
  · rfl

theorem rowGet_finishCare_hasErr (r2 : Row) (d : Bool) (edn : Option String × String) :
    rowGet (finishCare r2 d edn) "has_error" = Value.bool (edNonempty edn.1 || d) := by
  unfold finishCare
  rw [rowGet_clean_nan_inf, rowGet_setCol_self]
  rfl

theorem rowGet_finishCare_note (r2 : Row) (d : Bool) (edn : Option String × String) :
    rowGet (finishCare r2 d edn) "note" = Value.text edn.2 := by
  unfold finishCare
  rw [rowGet_clean_nan_inf, rowGet_setCol_ne _ _ _ _ (by decide), rowGet_setCol_self]
  rfl

theorem rowGet_finishCare_other (r2 : Row) (d : Bool) (edn : Option String × String)
    (k : String) (h1 : k ≠ "Error Details") (h2 : k ≠ "note") (h3 : k ≠ "has_error") :
    rowGet (finishCare r2 d edn) k = cleanVal (rowGet r2 k) := by
  unfold finishCare
  rw [rowGet_clean_nan_inf, rowGet_setCol_ne _ _ _ _ h3, rowGet_setCol_ne _ _ _ _ h2,
    rowGet_setCol_ne _ _ _ _ h1]

theorem hasCol_assembleOp_false (r : Row) (d : Bool) (k : String)
    (h1 : k ≠ "Duplicate Error") (h2 : k ≠ "Error Details") (h3 : k ≠ "has_error")
    (h : hasCol r k = false) : hasCol (assembleOp r d) k = false := by
  unfold assembleOp
  rw [hasCol_clean_nan_inf, hasCol_setCol, hasCol_setCol, hasCol_setCol]
  have e1 : ("Duplicate Error" == k) = false := by simpa using Ne.symm h1
  have e2 : ("Error Details" == k) = false := by simpa using Ne.symm h2
  have e3 : ("has_error" == k) = false := by simpa using Ne.symm h3
  simp [h, e1, e2, e3]

theorem joinFindings_eq_if (errors : List String) :
    joinFindings errors =
      if errors = [] then Option.none
      else some (String.intercalate "; " errors) := by
  cases errors <;> rfl

theorem cleanVal_bool (b : Bool) : cleanVal (Value.bool b) = Value.bool b := rfl

theorem cleanVal_tuple (ts : List String) :
    cleanVal (Value.tuple ts) = Value.tuple ts := rfl

theorem InputKind_rowGet (r : Row) (k : String) (hr : WellTyped r = true) :
    InputKind (rowGet r k) = true := by
  induction r with
  | nil => rfl
  | cons kv t ih =>
    simp only [WellTyped, List.all_cons, Bool.and_eq_true] at hr
    by_cases hk : kv.1 = k
    · have hkb : (kv.1 == k) = true := by simpa using hk
      simpa [rowGet, hkb] using hr.1
    · have hkb : (kv.1 == k) = false := by simpa using hk
      simp only [rowGet, hkb]
      exact ih hr.2

theorem operational_signal_eq_spec (r : Row) (col : String) (hr : WellTyped r = true) :
    operational_signal r col = SpecTruthy (rowGet r col) := by
  have hk := InputKind_rowGet r col hr
  unfold operational_signal
  cases hval : rowGet r col with
  | none => rfl
  | na => rfl
  | nan => rfl
  | num q => simp [SpecTruthy, Value.notna, Value.isna, Value.isNumber, Value.floatNe0]
  | text s =>
    by_cases hmem : pyStrip s ∈ (["", "0", "nan", "NaN"] : List String)
    · simp [SpecTruthy, Value.notna, Value.isna, Value.isNumber, pyStr, hmem]
    · simp [SpecTruthy, Value.notna, Value.isna, Value.isNumber, pyStr, hmem]
  | bool b =>
    rw [hval] at hk
    exact absurd hk (by simp [InputKind])
  | tuple ts =>
    rw [hval] at hk
    exact absurd hk (by simp [InputKind])

theorem filterMap_skip_eq_filter {α β : Type} (p : α → Prop) [DecidablePred p]
    (f : α → Option β) (l : List α) :
    (l.filterMap fun a => if p a then Option.none else f a) =
    (l.filter fun a => decide ¬ p a).filterMap f := by
  induction l with
  | nil => rfl
  | cons a t ih =>
    by_cases hp : p a
    · simp [List.filterMap_cons, List.filter_cons, hp, ih]
    · simp [List.filterMap_cons, List.filter_cons, hp, ih]

theorem length_filter_add_length_filter_not {α : Type} (l : List α) (p : α → Bool) :
    (l.filter p).length + (l.filter fun a => !(p a)).length = l.length := by
  induction l with
  | nil => rfl
  | cons a t ih =>
    rcases Bool.eq_false_or_eq_true (p a) with hp | hp
    · simp [List.filter_cons, hp]
      omega
    · simp [List.filter_cons, hp]
      omega

theorem count_filter_add_count_filter_not {α : Type} [BEq α] [LawfulBEq α] (l : List α)
    (p : α → Bool) (a : α) :
    (l.filter p).count a + (l.filter fun x => !(p x)).count a = l.count a := by
  induction l with
  | nil => rfl
  | cons b t ih =>
    rcases Bool.eq_false_or_eq_true (p b) with hp | hp
    · simp [List.filter_cons, hp, List.count_cons]
      omega
    · simp [List.filter_cons, hp, List.count_cons]
      omega

theorem normalizeTable_rows_length (t : Table) :
    (normalizeTable t).rows.length = t.rows.length := by
  simp [normalizeTable]

theorem map_count_flag_iff {κ : Type} [BEq κ] [LawfulBEq κ] (keys : List κ) (i : ℕ)
    (hi : i < keys.length)
    (hif : i < (keys.map fun k => decide (2 ≤ keys.count k)).length) :
    (keys.map fun k => decide (2 ≤ keys.count k))[i] = true ↔
      ∃ j, ∃ hj : j < keys.length, j ≠ i ∧ keys[j] = keys[i] := by
  simp only [List.getElem_map, decide_eq_true_eq]
  exact count_self_two_le_iff keys i hi

theorem opDupFlags_getElem_iff (rows : List Row) (i : ℕ) (h2 : i < rows.length)
    (h3 : i < (opDupFlags rows).length) :
    (opDupFlags rows)[i] = true ↔
      ∃ j, ∃ hj : j < rows.length, j ≠ i ∧ opKey rows[j] = opKey rows[i] := by
  have hki : i < (opKeys rows).length := by simpa [opKeys] using h2
  have h3' : i < ((opKeys rows).map fun k =>
      decide (2 ≤ (opKeys rows).count k)).length := by simpa [opDupFlags] using h3
  have hmain := map_count_flag_iff (opKeys rows) i hki h3'
  have hstep : (opDupFlags rows)[i] =
      ((opKeys rows).map fun k => decide (2 ≤ (opKeys rows).count k))[i] := by
    simp [opDupFlags]
  rw [hstep, hmain]
  constructor
  · rintro ⟨j, hj, hne, heq⟩
    have hj' : j < rows.length := by simpa [opKeys] using hj
    refine ⟨j, hj', hne, ?_⟩
    have e1 : (opKeys rows)[j] = opKey rows[j] := by simp [opKeys]
    have e2 : (opKeys rows)[i] = opKey rows[i] := by simp [opKeys]
    rw [e1, e2] at heq
    exact heq
  · rintro ⟨j, hj, hne, heq⟩
    have hj' : j < (opKeys rows).length := by simpa [opKeys] using hj
    refine ⟨j, hj', hne, ?_⟩
    have e1 : (opKeys rows)[j] = opKey rows[j] := by simp [opKeys]
    have e2 : (opKeys rows)[i] = opKey rows[i] := by simp [opKeys]
    rw [e1, e2]
    exact heq

theorem careDupFlags_getElem_iff (rows : List Row) (i : ℕ) (h2 : i < rows.length)
    (h3 : i < (careDupFlags rows).length) :
    (careDupFlags rows)[i] = true ↔
      ∃ j, ∃ hj : j < rows.length, j ≠ i ∧ care_key rows[j] = care_key rows[i] := by
  have hki : i < (careKeys rows).length := by simpa [careKeys] using h2
  have h3' : i < ((careKeys rows).map fun k =>
      decide (2 ≤ (careKeys rows).count k)).length := by simpa [careDupFlags] using h3
  have hmain := map_count_flag_iff (careKeys rows) i hki h3'
  have hstep : (careDupFlags rows)[i] =
      ((careKeys rows).map fun k => decide (2 ≤ (careKeys rows).count k))[i] := by
    simp [careDupFlags]
  rw [hstep, hmain]
  constructor
  · rintro ⟨j, hj, hne, heq⟩
    have hj' : j < rows.length := by simpa [careKeys] using hj
    refine ⟨j, hj', hne, ?_⟩
    have e1 : (careKeys rows)[j] = care_key rows[j] := by simp [careKeys]
    have e2 : (careKeys rows)[i] = care_key rows[i] := by simp [careKeys]
    rw [e1, e2] at heq
    exact heq
  · rintro ⟨j, hj, hne, heq⟩
    have hj' : j < (careKeys rows).length := by simpa [careKeys] using hj
    refine ⟨j, hj', hne, ?_⟩
    have e1 : (careKeys rows)[j] = care_key rows[j] := by simp [careKeys]
    have e2 : (careKeys rows)[i] = care_key rows[i] := by simp [careKeys]
    rw [e1, e2]
    exact heq

theorem hasError_iff_op (r : Row) (d : Bool) :
    rowGet (assembleOp r d) "has_error" = Value.bool true ↔
      ((∃ s, rowGet (assembleOp r d) "Error Details" = Value.text s ∧ s ≠ "") ∨
        rowGet (assembleOp r d) "Duplicate Error" = Value.bool true) := by
  rw [rowGet_assembleOp_hasErr, rowGet_assembleOp_ed, rowGet_assembleOp_dup]
  cases d
  · cases hed : check_operational_row (setCol r "Duplicate Error" (Value.bool false)) with
    | none => simp [edNonempty, valueOfOptStr]
    | some s =>
      by_cases hs : s = ""
      · subst hs
        simp [edNonempty, valueOfOptStr]
      · simp [edNonempty, valueOfOptStr, hs]
  · simp [edNonempty]

theorem hasError_iff_care (r2 : Row) (d : Bool) (edn : Option String × String)
    (hd : rowGet r2 "Duplicate Error" = Value.bool d) :
    rowGet (finishCare r2 d edn) "has_error" = Value.bool true ↔
      ((∃ s, rowGet (finishCare r2 d edn) "Error Details" = Value.text s ∧ s ≠ "") ∨
        rowGet (finishCare r2 d edn) "Duplicate Error" = Value.bool true) := by
  rw [rowGet_finishCare_hasErr, rowGet_finishCare_ed,
    rowGet_finishCare_other _ _ _ _ (by decide) (by decide) (by decide), hd, cleanVal_bool]
  cases d
  · cases hed : edn.1 with
    | none => simp [edNonempty, valueOfOptStr, hed]
    | some s =>
      by_cases hs : s = ""
      · subst hs
        simp [edNonempty, valueOfOptStr, hed]
      · simp [edNonempty, valueOfOptStr, hed, hs]
  · simp [edNonempty]

/-! Claim theorems. -/

/-- C1: the claim says that a table lacking any required operational or
care column is processed to completion with findings attached as row data.
On the code, the `pd.NA` filler of an absent `Vaccination` column reaches
`row.get('Vaccination') or ''`, whose boolean coercion raises `TypeError`,
so the engine aborts instead of returning results: on a sheet with only
`Flock` and `Date` columns and one care row, `analyze` raises. -/
theorem claim1_missing_care_column_raises :
    analyze tMissingCareCols = .error "boolean value of NA is ambiguous" := by
  decide

/-- C2: the claim says a missing `Vaccination`/`Medication` is treated as
the empty string, so a care row missing both gets the error
`"Missing Vaccination and Medication"`.  On the code, a missing (NaN) cell
is truthy, survives `or ''` untouched and stringifies to `"nan"`, so the
row counts as having both values: on such a row the validator returns no
error and no note. -/
theorem claim2_missing_vacc_med_unreported :
    (rowGet rowBothVaccMedMissing "Vaccination").isna = true ∧
    (rowGet rowBothVaccMedMissing "Medication").isna = true ∧
    check_care_row rowBothVaccMedMissing = .ok (Option.none, "") := by
  exact ⟨by decide, by decide, by decide⟩

/-- C3 as stated is false: the `Flock` and `Date` components of the care
key are built without the missing-value guard, so a missing (NaN) `Flock`
normalises to `"NAN"` — not `""` — and collides with the literal text
`"nan"`; under the claim's normalisation the two rows' keys differ, yet
both rows are flagged as duplicates. -/
theorem claim3_counterexample :
    care_key rowFlockNaN = care_key rowFlockTextNan ∧
    careDupFlags [rowFlockNaN, rowFlockTextNan] = [true, true] ∧
    spec_care_key rowFlockNaN ≠ spec_care_key rowFlockTextNan ∧
    (care_key rowFlockNaN).headD "" = "NAN" ∧
    (spec_care_key rowFlockNaN).headD "" = "" := by
  exact ⟨by decide, by decide, by decide, by decide, by decide⟩

/-- C3 amended: the eight vaccination/medication components of the care
key are normalised as claimed (missing becomes `""`, trimmed and
upper-cased except the trim-only `Medication Exp Date`), but `Flock` and
`Date` are stringified without a missing-value guard — a NaN `Flock`
yields `"NAN"` and a NaN `Date` yields `"nan"` — and two care rows are
flagged as duplicates exactly when their normalised 10-tuples are equal. -/
theorem claim3_amended_care_key :
    (∀ r : Row, care_key r =
      [pyUpper (pyStrip (pyStr (rowGet r "Flock"))),
       pyStrip (pyStr (rowGet r "Date"))] ++ (spec_care_key r).drop 2)
    ∧ (∀ r : Row, rowGet r "Flock" = Value.nan → (care_key r).headD "" = "NAN")
    ∧ (∀ r : Row, rowGet r "Date" = Value.nan → (care_key r).getD 1 "" = "nan")
    ∧ (∀ rows : List Row, ∀ i : ℕ, ∀ h1 : i < (careDupFlags rows).length,
        ∀ h2 : i < rows.length,
        ((careDupFlags rows)[i] = true ↔
          ∃ j, ∃ hj : j < rows.length, j ≠ i ∧
            care_key rows[j] = care_key rows[i])) := by
  refine ⟨fun r => rfl, ?_, ?_, ?_⟩
  · intro r h
    simp only [care_key]
    rw [h]
    rfl
  · intro r h
    simp only [care_key]
    rw [h]
    rfl
  · intro rows i h1 h2
    exact careDupFlags_getElem_iff rows i h2 h1

/-- Witness for the amended C3 at concrete inputs. -/
theorem claim3_amended_care_key_witness :
    (care_key rowFlockNaN).headD "" = "NAN" ∧
    (care_key rowDateNaN).getD 1 "" = "nan" ∧
    ((careDupFlags [rowFlockNaN, rowFlockTextNan]).get ⟨0, by decide⟩ = true ↔
      ∃ j, ∃ hj : j < ([rowFlockNaN, rowFlockTextNan] : List Row).length, j ≠ 0 ∧
        care_key ([rowFlockNaN, rowFlockTextNan] : List Row)[j] =
          care_key (([rowFlockNaN, rowFlockTextNan] : List Row).get ⟨0, by decide⟩)) :=
  ⟨claim3_amended_care_key.2.1 rowFlockNaN rfl,
   claim3_amended_care_key.2.2.1 rowDateNaN rfl,
   claim3_amended_care_key.2.2.2 [rowFlockNaN, rowFlockTextNan] 0 (by decide) (by decide)⟩

/-- C4 as stated is false in the previously-empty case: a duplicate row
with no prior findings gets `Error Details` equal to
`"None; Duplicate Flock/Date"` — `astype(str)` renders the prior `None` as
the text `"None"` — which does not start with `"; "`. -/
theorem claim4_counterexample :
    (processOperational [validOperationalRow, validOperationalRow]).map
      (fun rec => rowGet rec "Error Details") =
      [Value.text "None; Duplicate Flock/Date",
       Value.text "None; Duplicate Flock/Date"] ∧
    (processOperational [validOperationalRow, validOperationalRow]).map
      (fun rec => rowGet rec "Duplicate Error") = [Value.bool true, Value.bool true] ∧
    List.isPrefixOf "; ".data "None; Duplicate Flock/Date".data = false := by
  exact ⟨by decide, by decide, by decide⟩

/-- C4 amended: for every row whose duplicate flag is true the fixed
suffix — `"; Duplicate Flock/Date"` for operational rows,
`"; Duplicate Flock/Date/Vaccination/Medication"` for care rows — is
appended to the `str()` form of the prior `Error Details`, so when that
value was `None` the result is `"None; <suffix>"` (a string starting with
`"None; "`, not `"; "`). -/
theorem claim4_amended_duplicate_suffix :
    (∀ r : Row, rowGet (assembleOp r true) "Error Details" =
      Value.text (optStrRepr (check_operational_row
        (setCol r "Duplicate Error" (Value.bool true))) ++ "; Duplicate Flock/Date"))
    ∧ (∀ (r2 : Row) (edn : Option String × String),
        rowGet (finishCare r2 true edn) "Error Details" =
        Value.text (optStrRepr edn.1 ++ "; Duplicate Flock/Date/Vaccination/Medication"))
    ∧ (∀ r : Row, check_operational_row (setCol r "Duplicate Error" (Value.bool true)) =
        Option.none →
        rowGet (assembleOp r true) "Error Details" =
          Value.text "None; Duplicate Flock/Date")
    ∧ (∀ (r2 : Row) (edn : Option String × String), edn.1 = Option.none →
        rowGet (finishCare r2 true edn) "Error Details" =
          Value.text "None; Duplicate Flock/Date/Vaccination/Medication") := by
  have hop : ∀ r : Row, rowGet (assembleOp r true) "Error Details" =
      Value.text (optStrRepr (check_operational_row
        (setCol r "Duplicate Error" (Value.bool true))) ++ "; Duplicate Flock/Date") := by
    intro r
    rw [rowGet_assembleOp_ed]
    rfl
  have hcare : ∀ (r2 : Row) (edn : Option String × String),
      rowGet (finishCare r2 true edn) "Error Details" =
      Value.text (optStrRepr edn.1 ++ "; Duplicate Flock/Date/Vaccination/Medication") := by
    intro r2 edn
    rw [rowGet_finishCare_ed]
    rfl
  refine ⟨hop, hcare, ?_, ?_⟩
  · intro r h
    rw [hop r, h]
    rfl
  · intro r2 edn h
    rw [hcare r2 edn, h]
    rfl

/-- Witness for the amended C4 at concrete inputs. -/
theorem claim4_amended_duplicate_suffix_witness :
    check_operational_row (setCol validOperationalRow "Duplicate Error" (Value.bool true)) =
      Option.none ∧
    rowGet (assembleOp validOperationalRow true) "Error Details" =
      Value.text "None; Duplicate Flock/Date" ∧
    rowGet (finishCare [] true (Option.none, "")) "Error Details" =
      Value.text "None; Duplicate Flock/Date/Vaccination/Medication" :=
  ⟨by decide,
   claim4_amended_duplicate_suffix.2.2.1 validOperationalRow (by decide),
   claim4_amended_duplicate_suffix.2.2.2 [] (Option.none, "") rfl⟩

/-- C5: in both output tables, `has_error` is true exactly when the
emitted `Error Details` is a non-empty string or the row's
`Duplicate Error` flag is true. -/
theorem claim5_has_error_iff :
    (∀ rows : List Row, ∀ rec ∈ processOperational rows,
      (rowGet rec "has_error" = Value.bool true ↔
        (∃ s, rowGet rec "Error Details" = Value.text s ∧ s ≠ "") ∨
          rowGet rec "Duplicate Error" = Value.bool true))
    ∧ (∀ rows recs : List Row, processCare rows = .ok recs → ∀ rec ∈ recs,
      (rowGet rec "has_error" = Value.bool true ↔
        (∃ s, rowGet rec "Error Details" = Value.text s ∧ s ≠ "") ∨
          rowGet rec "Duplicate Error" = Value.bool true)) := by
  constructor
  · intro rows rec hrec
    simp only [processOperational] at hrec
    obtain ⟨p, hp, rfl⟩ := List.mem_map.mp hrec
    exact hasError_iff_op p.1 p.2
  · intro rows recs h rec hrec
    obtain ⟨i, hi, rfl⟩ := List.mem_iff_getElem.mp hrec
    have hlen := processCare_ok_length rows recs h
    have h2 : i < rows.length := by omega
    have hk : i < (careKeys rows).length := by rw [careKeys_length]; omega
    have hf : i < (careDupFlags rows).length := by rw [careDupFlags_length]; omega
    have hr2 : i < (careRows2 rows).length := by rw [careRows2_length]; omega
    obtain ⟨edn, hche, hrow2, hrec_eq⟩ := processCare_ok_elem rows recs h i hi h2 hk hf hr2
    rw [hrec_eq]
    apply hasError_iff_care
    rw [hrow2, rowGet_setCol_self]

/-- Witness for C5 on the records of a one-row table. -/
theorem claim5_has_error_iff_witness :
    (rowGet opRecOfEmptyRow "has_error" = Value.bool true ↔
      (∃ s, rowGet opRecOfEmptyRow "Error Details" = Value.text s ∧ s ≠ "") ∨
        rowGet opRecOfEmptyRow "Duplicate Error" = Value.bool true) ∧
    (rowGet (careRecsOfEmptyRow.headD []) "has_error" = Value.bool true ↔
      (∃ s, rowGet (careRecsOfEmptyRow.headD []) "Error Details" = Value.text s ∧ s ≠ "") ∨
        rowGet (careRecsOfEmptyRow.headD []) "Duplicate Error" = Value.bool true) :=
  ⟨claim5_has_error_iff.1 [[]] opRecOfEmptyRow (by decide),
   claim5_has_error_iff.2 [[]] careRecsOfEmptyRow (by decide)
     (careRecsOfEmptyRow.headD []) (by decide)⟩

/-- C6: the classifier splits the input rows into a stable partition — the
two output lengths sum to the input length, each part is a subsequence of
the input (original order kept), and every row occurrence lands in exactly
one part. -/
theorem claim6_stable_partition :
    (∀ t : Table, ∀ res : AnalyzeResult, analyze t = .ok res →
      res.operational_data.length + res.care_data.length = t.rows.length)
    ∧ (∀ rows : List Row,
        (rows.filter is_operational_row).length +
          (rows.filter fun r => !(is_operational_row r)).length = rows.length
        ∧ (rows.filter is_operational_row).Sublist rows
        ∧ (rows.filter fun r => !(is_operational_row r)).Sublist rows
        ∧ ∀ r : Row, (rows.filter is_operational_row).count r +
            (rows.filter fun r => !(is_operational_row r)).count r = rows.count r) := by
  constructor
  · intro t res h
    simp only [analyze] at h
    cases hm : processCare ((normalizeTable t).rows.filter fun r => !(is_operational_row r)) with
    | error e =>
      rw [hm] at h
      exact absurd h (by simp)
    | ok care =>
      rw [hm] at h
      injection h with h'
      subst h'
      show (processOperational ((normalizeTable t).rows.filter is_operational_row)).length +
        care.length = t.rows.length
      rw [processOperational_length, processCare_ok_length _ _ hm,
        length_filter_add_length_filter_not, normalizeTable_rows_length]
  · intro rows
    exact ⟨length_filter_add_length_filter_not rows is_operational_row,
      List.filter_sublist rows, List.filter_sublist rows,
      fun r => count_filter_add_count_filter_not rows is_operational_row r⟩

/-- Witness for C6 on a two-row table with one operational and one care
row. -/
theorem claim6_stable_partition_witness :
    resTwoRows.operational_data.length + resTwoRows.care_data.length =
      tTwoRows.rows.length :=
  claim6_stable_partition.1 tTwoRows resTwoRows (by decide)

/-- C7: on rows whose cells have the input kinds, the classifier marks a
row operational exactly when some required operational column outside the
optional set and `Flock`/`Date` holds a present, truthy value — non-zero
for numbers, and for strings a trimmed form outside
`{"", "0", "nan", "NaN"}`. -/
theorem claim7_classifier_iff_truthy :
    ∀ r : Row, WellTyped r = true →
      (is_operational_row r = true ↔
        ∃ col, col ∈ REQUIRED_OPERATIONAL_COLS ∧ col ∉ OPTIONAL_OPERATIONAL_COLS ∧
          col ∉ (["Flock", "Date"] : List String) ∧
          SpecTruthy (rowGet r col) = true) := by
  intro r hr
  unfold is_operational_row
  rw [List.any_eq_true]
  constructor
  · rintro ⟨col, hmem, hcol⟩
    by_cases hskip : col ∈ OPTIONAL_OPERATIONAL_COLS ++ ["Flock", "Date"]
    · rw [if_pos hskip] at hcol
      exact absurd hcol (by simp)
    · rw [if_neg hskip] at hcol
      rw [operational_signal_eq_spec r col hr] at hcol
      rw [List.mem_append] at hskip
      push_neg at hskip
      exact ⟨col, hmem, hskip.1, hskip.2, hcol⟩
  · rintro ⟨col, hmem, h1, h2, h3⟩
    refine ⟨col, hmem, ?_⟩
    have hskip : col ∉ OPTIONAL_OPERATIONAL_COLS ++ ["Flock", "Date"] := by
      rw [List.mem_append]
      push_neg
      exact ⟨h1, h2⟩
    rw [if_neg hskip, operational_signal_eq_spec r col hr]
    exact h3

/-- Witness for C7 on a concrete well-typed row. -/
theorem claim7_classifier_iff_truthy_witness :
    is_operational_row mortalityOnlyRow = true ↔
      ∃ col, col ∈ REQUIRED_OPERATIONAL_COLS ∧ col ∉ OPTIONAL_OPERATIONAL_COLS ∧
        col ∉ (["Flock", "Date"] : List String) ∧
        SpecTruthy (rowGet mortalityOnlyRow col) = true :=
  claim7_classifier_iff_truthy mortalityOnlyRow (by decide)

/-- C8: the operational validator emits exactly the findings the spec
lists — `"Missing <col>"`/`"Negative value in <col>"` over the qualifying
columns, then the `Flock`/`Date` presence findings — joined with `"; "`
and reported as `None` when empty; and on spec Example 4 (a row whose
only violation is `Animal Feed Consumed = -5`) the emitted record carries
exactly `"Negative value in Animal Feed Consumed"` with `has_error`
true. -/
theorem claim8_operational_validator :
    (∀ r : Row, check_operational_row r =
      if spec_operational_errors r = [] then Option.none
      else some (String.intercalate "; " (spec_operational_errors r)))
    ∧ (processOperational [negativeFeedRow]).map (fun rec => rowGet rec "Error Details") =
        [Value.text "Negative value in Animal Feed Consumed"]
    ∧ (processOperational [negativeFeedRow]).map (fun rec => rowGet rec "has_error") =
        [Value.bool true] := by
  refine ⟨?_, by decide, by decide⟩
  intro r
  unfold check_operational_row spec_operational_errors
  rw [filterMap_skip_eq_filter]
  have hfl : (REQUIRED_OPERATIONAL_COLS.filter fun col =>
      decide ¬(col ∈ OPTIONAL_OPERATIONAL_COLS ++ ["Flock", "Date"])) =
    (REQUIRED_OPERATIONAL_COLS.filter fun col =>
      decide (col ∉ OPTIONAL_OPERATIONAL_COLS) &&
      decide (col ∉ (["Flock", "Date"] : List String))) := by decide
  rw [hfl, joinFindings_eq_if]

/-- C9: an operational row's duplicate flag is true exactly when another
row of the table shares its `(Flock, Date)` key — so all members of a
collision are flagged, an empty table flags nothing, and missing key
components compare equal to other missing components. -/
theorem claim9_operational_duplicates :
    (∀ rows : List Row, ∀ i : ℕ, ∀ h1 : i < (processOperational rows).length,
      ∀ h2 : i < rows.length,
      (rowGet ((processOperational rows)[i]) "Duplicate Error" = Value.bool true ↔
        ∃ j, ∃ hj : j < rows.length, j ≠ i ∧ opKey rows[j] = opKey rows[i]))
    ∧ processOperational [] = []
    ∧ (∀ r1 r2 : Row, (rowGet r1 "Flock").isna = true → (rowGet r2 "Flock").isna = true →
        (rowGet r1 "Date").isna = true → (rowGet r2 "Date").isna = true →
        opKey r1 = opKey r2) := by
  refine ⟨?_, rfl, ?_⟩
  · intro rows i h1 h2
    have h3 : i < (opDupFlags rows).length := by rw [opDupFlags_length]; omega
    have hget : (processOperational rows)[i] = assembleOp rows[i] ((opDupFlags rows)[i]) :=
      getElem_of_getElem? _ _ h1 _ (processOperational_getElem? rows i h2 h3)
    rw [hget, rowGet_assembleOp_dup]
    simp only [Value.bool.injEq]
    exact opDupFlags_getElem_iff rows i h2 h3
  · intro r1 r2 hf1 hf2 hd1 hd2
    simp [opKey, naCollapse, hf1, hf2, hd1, hd2]

/-- Witness for C9 on two rows sharing a `(Flock, Date)` key. -/
theorem claim9_operational_duplicates_witness :
    rowGet ((processOperational dupFlockRows).get ⟨0, by decide⟩) "Duplicate Error" =
      Value.bool true ↔
      ∃ j, ∃ hj : j < dupFlockRows.length, j ≠ 0 ∧
        opKey dupFlockRows[j] = opKey (dupFlockRows.get ⟨0, by decide⟩) :=
  claim9_operational_duplicates.1 dupFlockRows 0 (by decide) (by decide)

/-- C10: every emitted care record carries the extra `care_key` field
holding the normalised 10-tuple used for duplicate detection, while — for
tables that do not already have such a column — operational records carry
no `care_key` field. -/
theorem claim10_care_key_field :
    (∀ rows recs : List Row, processCare rows = .ok recs →
      recs.length = rows.length ∧
      ∀ i : ℕ, ∀ hi : i < recs.length, ∀ h2 : i < rows.length,
        rowGet (recs[i]) "care_key" = Value.tuple (care_key (rows[i])) ∧
        hasCol (recs[i]) "care_key" = true)
    ∧ (∀ rows : List Row, (∀ r ∈ rows, hasCol r "care_key" = false) →
        ∀ rec ∈ processOperational rows, hasCol rec "care_key" = false) := by
  constructor
  · intro rows recs h
    refine ⟨processCare_ok_length rows recs h, ?_⟩
    intro i hi h2
    have hk : i < (careKeys rows).length := by rw [careKeys_length]; omega
    have hf : i < (careDupFlags rows).length := by rw [careDupFlags_length]; omega
    have hr2 : i < (careRows2 rows).length := by rw [careRows2_length]; omega
    obtain ⟨edn, hche, hrow2, hrec⟩ := processCare_ok_elem rows recs h i hi h2 hk hf hr2
    constructor
    · rw [hrec, rowGet_finishCare_other _ _ _ _ (by decide) (by decide) (by decide),
        hrow2, rowGet_setCol_ne _ _ _ _ (by decide), rowGet_setCol_self, cleanVal_tuple]
      have hkey : (careKeys rows)[i] = care_key rows[i] := by simp [careKeys]
      rw [hkey]
    · rw [hrec]
      unfold finishCare
      rw [hasCol_clean_nan_inf, hasCol_setCol, hasCol_setCol, hasCol_setCol, hrow2,
        hasCol_setCol, hasCol_setCol]
      simp
  · intro rows hnone rec hrec
    simp only [processOperational] at hrec
    obtain ⟨p, hp, rfl⟩ := List.mem_map.mp hrec
    obtain ⟨r, d⟩ := p
    have hr : r ∈ rows := (List.of_mem_zip hp).1
    exact hasCol_assembleOp_false r d _ (by decide) (by decide) (by decide) (hnone r hr)

/-- Witness for C10 on a one-row table. -/
theorem claim10_care_key_field_witness :
    (rowGet (careRecsOfEmptyRow.get ⟨0, by decide⟩) "care_key" =
        Value.tuple (care_key ([] : Row)) ∧
      hasCol (careRecsOfEmptyRow.get ⟨0, by decide⟩) "care_key" = true) ∧
    hasCol opRecOfEmptyRow "care_key" = false :=
  ⟨(claim10_care_key_field.1 [[]] careRecsOfEmptyRow (by decide)).2 0 (by decide) (by decide),
   claim10_care_key_field.2 [[]] (by decide) opRecOfEmptyRow (by decide)⟩

end Poultry
